import Mathlib

/-!
Verification of the turnkey delegated-signing client.

The development shallowly embeds the library's data model and operations:

* `src/bytes.rs` — hex codecs (`hex_to_bytes`, `bytes_to_hex`);
* `src/client.rs` — `stamp`, `sign_transaction`, the post-response part of
  `sign_bytes`, and `process_response`;
* `src/models.rs` — request/response records and their serde JSON shapes;
* `src/errors.rs` — the `TurnkeyError` taxonomy.

Rust strings are modelled as lists of characters (`Str`); all strings that the
claims exercise are ASCII, where Rust's byte indexing and character indexing
coincide.  Machine bytes (`u8`) are modelled as `Nat` together with `< 256`
hypotheses where the value range matters.  A Rust computation that can panic is
modelled by the `ROut` outcome type, which distinguishes a returned `Ok`, a
returned `Err`, and a panic.  External collaborators (the P-256 crate, the
HTTP transport, JSON deserialization of response bodies) are parameters of the
embedding, supplied at each theorem's boundary exactly as the spec treats them.
-/

namespace Turnkey

/-- A Rust string (`String` / `&str`), modelled as its list of characters. -/
abbrev Str := List Char

/-- Outcome of a Rust computation returning `Result`: a returned value, a
returned error, or a panic (an abnormal abort that never produces a value). -/
inductive ROut (ε : Type) (α : Type) where
  | ok (a : α)
  | err (e : ε)
  | panic (msg : Str)
deriving DecidableEq

/-- Embedding of `char::to_digit(c, 16)`: the numeric value of a hex digit, accepting
`0-9`, `a-f` and `A-F`, and `none` on every other character. -/
def hexDigitVal (c : Char) : Option Nat :=
  if '0' ≤ c ∧ c ≤ '9' then some (c.toNat - 48)
  else if 'a' ≤ c ∧ c ≤ 'f' then some (c.toNat - 87)
  else if 'A' ≤ c ∧ c ≤ 'F' then some (c.toNat - 55)
  else none

/-- The digit-accumulation loop of `u8::from_str_radix(_, 16)`: consume hex
digits left to right with checked arithmetic against the `u8` maximum 255. -/
def from_str_radix_u8_digits : List Char → Nat → Except Str Nat
  | [], acc => .ok acc
  | c :: cs, acc =>
    match hexDigitVal c with
    | none => .error "invalid digit found in string".data
    | some d =>
      if acc * 16 + d ≤ 255 then from_str_radix_u8_digits cs (acc * 16 + d)
      else .error "number too large to fit in target type".data

/-- Embedding of `u8::from_str_radix(s, 16)`.  Faithful to the Rust standard library: an
empty string is an error, a leading `+` is accepted and skipped (a lone `+` is
an invalid digit), and — the type being unsigned — a leading `-` is treated as
an ordinary (invalid) digit. -/
def from_str_radix_u8 (s : Str) : Except Str Nat :=
  match s with
  | [] => .error "cannot parse integer from empty string".data
  | ['+'] => .error "invalid digit found in string".data
  | '+' :: rest => from_str_radix_u8_digits rest 0
  | _ => from_str_radix_u8_digits s 0

/-- Embedding of `bytes.rs` lines 18–24, `hex_to_bytes`: iterate `i = 0, 2, 4, …` over the
string, slicing `hex[i..i+2]` and parsing each slice with
`u8::from_str_radix(_, 16)`; `collect` over an iterator of `Result`s
short-circuits at the first error.  On an odd-length string the final slice
`hex[len-1..len+1]` is out of bounds, which in Rust is a panic, reached only
when every earlier pair parsed successfully (the short-circuit fires first
otherwise). -/
def hex_to_bytes : Str → ROut Str (List Nat)
  | [] => .ok []
  | [_] => .panic "byte index out of bounds".data
  | c1 :: c2 :: rest =>
    match from_str_radix_u8 [c1, c2] with
    | .error e => .err e
    | .ok b =>
      match hex_to_bytes rest with
      | .ok bs => .ok (b :: bs)
      | r => r

/-- The sixteen lowercase hex digit characters, in value order. -/
def lowerHexDigits : Str := "0123456789abcdef".data

/-- The lowercase hex digit for a value `0–15` (the digit table used by Rust's
`LowerHex` formatting). -/
def hexChar (n : Nat) : Char :=
  if n = 0 then '0' else if n = 1 then '1' else if n = 2 then '2'
  else if n = 3 then '3' else if n = 4 then '4' else if n = 5 then '5'
  else if n = 6 then '6' else if n = 7 then '7' else if n = 8 then '8'
  else if n = 9 then '9' else if n = 10 then 'a' else if n = 11 then 'b'
  else if n = 12 then 'c' else if n = 13 then 'd' else if n = 14 then 'e'
  else if n = 15 then 'f' else '0'

/-- Embedding of `format!("02x", byte)` on a `u8`: exactly two lowercase hex digits,
high nibble first (faithful for `b < 256`, the range of `u8`). -/
def byteToHex (b : Nat) : Str := [hexChar (b / 16), hexChar (b % 16)]

/-- The string produced by `bytes_to_hex`: the per-byte two-digit renderings,
concatenated in order. -/
def bytes_to_hex_chars (bytes : List Nat) : Str := (bytes.map byteToHex).flatten

/-- Embedding of `bytes.rs` lines 26–28, `bytes_to_hex`: always returns `Ok` of the
concatenation of each byte rendered via `format!("02x", _)`. -/
def bytes_to_hex (bytes : List Nat) : ROut Str Str :=
  .ok (bytes_to_hex_chars bytes)

instance {ε α : Type} [DecidableEq ε] [DecidableEq α] : DecidableEq (Except ε α) :=
  fun x y =>
    match x, y with
    | .ok a, .ok b =>
      if h : a = b then .isTrue (by rw [h]) else .isFalse (fun hh => h (Except.ok.inj hh))
    | .error a, .error b =>
      if h : a = b then .isTrue (by rw [h]) else .isFalse (fun hh => h (Except.error.inj hh))
    | .ok _, .error _ => .isFalse (fun hh => Except.noConfusion hh)
    | .error _, .ok _ => .isFalse (fun hh => Except.noConfusion hh)

set_option maxRecDepth 4096 in
/-- Parsing the two-digit rendering of a byte recovers the byte. -/
theorem from_str_radix_byteToHex : ∀ b : Nat, b < 256 →
    from_str_radix_u8 (byteToHex b) = .ok b := by decide

set_option maxRecDepth 4096 in
/-- Every character emitted by `byteToHex` is a lowercase hex digit. -/
theorem byteToHex_mem_lowerHex : ∀ b : Nat, b < 256 →
    ∀ c ∈ byteToHex b, c ∈ lowerHexDigits := by decide

/-- C9: `bytes_to_hex` never fails — it returns `Ok` of a string of exactly
two lowercase hex digits per input byte, so the output length is twice the
input length. -/
theorem bytes_to_hex_total_shape (B : List Nat) (h : ∀ b ∈ B, b < 256) :
    bytes_to_hex B = .ok (bytes_to_hex_chars B) ∧
    (bytes_to_hex_chars B).length = 2 * B.length ∧
    ∀ c ∈ bytes_to_hex_chars B, c ∈ lowerHexDigits := by
  refine ⟨rfl, ?_, ?_⟩
  · induction B with
    | nil => rfl
    | cons b B ih =>
      have hB : ∀ x ∈ B, x < 256 := fun x hx => h x (List.mem_cons_of_mem _ hx)
      have ihh := ih hB
      have hsplit : bytes_to_hex_chars (b :: B) = byteToHex b ++ bytes_to_hex_chars B := rfl
      have hlen2 : (byteToHex b).length = 2 := rfl
      rw [hsplit, List.length_append, hlen2, ihh, List.length_cons]
      ring
  · induction B with
    | nil => intro c hc; cases hc
    | cons b B ih =>
      have hb : b < 256 := h b (List.mem_cons_self _ _)
      have hB : ∀ x ∈ B, x < 256 := fun x hx => h x (List.mem_cons_of_mem _ hx)
      intro c hc
      have hsplit : bytes_to_hex_chars (b :: B) = byteToHex b ++ bytes_to_hex_chars B := rfl
      rw [hsplit, List.mem_append] at hc
      rcases hc with hc | hc
      · exact byteToHex_mem_lowerHex b hb c hc
      · exact ih hB c hc

/-- C9 witness at the concrete byte sequence `[0, 171, 255]`. -/
theorem bytes_to_hex_total_shape_witness :
    bytes_to_hex [0, 171, 255] = .ok (bytes_to_hex_chars [0, 171, 255]) ∧
    (bytes_to_hex_chars [0, 171, 255]).length = 2 * 3 ∧
    ∀ c ∈ bytes_to_hex_chars [0, 171, 255], c ∈ lowerHexDigits :=
  bytes_to_hex_total_shape [0, 171, 255] (by decide)

/-- C8: decoding the hex rendering of a byte sequence recovers the sequence:
`hex_to_bytes` applied to the `Ok` payload of `bytes_to_hex B` returns
`Ok B`. -/
theorem hex_roundtrip (B : List Nat) (h : ∀ b ∈ B, b < 256) :
    bytes_to_hex B = .ok (bytes_to_hex_chars B) ∧
    hex_to_bytes (bytes_to_hex_chars B) = .ok B := by
  refine ⟨rfl, ?_⟩
  induction B with
  | nil => rfl
  | cons b B ih =>
    have hb : b < 256 := h b (List.mem_cons_self _ _)
    have hB : ∀ x ∈ B, x < 256 := fun x hx => h x (List.mem_cons_of_mem _ hx)
    have hsplit : bytes_to_hex_chars (b :: B)
        = hexChar (b / 16) :: hexChar (b % 16) :: bytes_to_hex_chars B := rfl
    have hpair := from_str_radix_byteToHex b hb
    simp only [byteToHex] at hpair
    rw [hsplit]
    simp only [hex_to_bytes, hpair, ih hB]

/-- C8 witness at the concrete byte sequence `[0, 171, 255]`. -/
theorem hex_roundtrip_witness :
    bytes_to_hex [0, 171, 255] = .ok (bytes_to_hex_chars [0, 171, 255]) ∧
    hex_to_bytes (bytes_to_hex_chars [0, 171, 255]) = .ok [0, 171, 255] :=
  hex_roundtrip [0, 171, 255] (by decide)

/-- C7 (evidence of the divergence): on the odd-length input `"abc"` the code
panics — the slice `hex[2..4]` is out of bounds — instead of returning an
encoding error; and the input `"+f"`, which contains the non-hex character
`+`, is accepted with value `[15]` because `u8::from_str_radix` tolerates a
leading plus sign.  Both contradict the documented behavior. -/
theorem hex_to_bytes_odd_panics_plus_accepted :
    hex_to_bytes "abc".data = .panic "byte index out of bounds".data ∧
    hex_to_bytes "+f".data = .ok [15] ∧
    hex_to_bytes "zz".data = .err "invalid digit found in string".data := by
  refine ⟨rfl, rfl, rfl⟩

/-- A field violation inside a structured remote error
(`errors.rs` lines 64–68). -/
structure FieldViolation where
  field : Str
  description : Str
deriving DecidableEq

/-- One detail entry of a structured remote error (`errors.rs` lines 56–62);
`type_field` is serialized from the JSON key `@type`. -/
structure ErrorDetail where
  type_field : Str
  field_violations : List FieldViolation
deriving DecidableEq

/-- The structured remote-error body (`errors.rs` lines 49–54). -/
structure TurnkeyResponseError where
  code : Nat
  message : Str
  details : List ErrorDetail
deriving DecidableEq

/-- The error taxonomy (`errors.rs` lines 21–47).  `HttpError` carries a
`reqwest::Error`, an external transport error modelled by its description
string; `OtherError` carries the rendered message of any other failure. -/
inductive TurnkeyError where
  | MethodError (e : TurnkeyResponseError)
  | HttpError (e : Str)
  | OtherError (s : Str)
deriving DecidableEq

/-- A Solana public key (32 bytes, compared for exact equality). -/
abbrev Pubkey := List Nat

/-- A Solana signature value (64 bytes). -/
abbrev SolSignature := List Nat

/-- Embedding of `client.rs` lines 29–32, `KeyInfo`: the resolved identity, pairing the
remote signing-key identifier with its public key. -/
structure KeyInfo where
  private_key_id : Str
  public_key : Pubkey
deriving DecidableEq

/-- The transaction's message: the ordered account-key list, plus the rest of
the message (header, blockhash, instructions), which this library never
touches and which the embedding keeps opaque. -/
structure Message where
  account_keys : List Pubkey
  rest : List Nat
deriving DecidableEq

/-- An external Solana transaction: a list of signature slots parallel to the
message's account-key list. -/
structure Transaction where
  signatures : List SolSignature
  message : Message
deriving DecidableEq

/-- Embedding of `Signature::try_from(&[u8])` (used at `client.rs` line 144): succeeds
exactly on 64-byte slices; otherwise the `TryFromSliceError` is converted by
the `From` impl at `errors.rs` lines 100–104. -/
def signature_try_from (b : List Nat) : Except TurnkeyError SolSignature :=
  if b.length = 64 then .ok b
  else .error (.OtherError "Signature conversion error: could not convert slice to array".data)

/-- Rust's `Iterator::position`: the index of the first element satisfying the
predicate, scanning left to right. -/
def position (p : α → Bool) : List α → Option Nat
  | [] => none
  | x :: xs => if p x then some 0 else (position p xs).map (· + 1)

/-- Embedding of `client.rs` lines 132–164, `sign_transaction`.  The remote round trip
(`self.sign_bytes(&serialized_message, …).await`, lines 141–143) is an
external collaborator here; its outcome enters as the `sign_bytes_result`
parameter, and the `?` operator propagates its error.  The function returns
the final state of the `&mut` transaction together with the returned value:
on success the signature is written into slot `i` — the position of the
identity's public key in the account-key list — provided `i` is within the
signature list, and the mutated transaction is cloned into the result;
otherwise the transaction is left untouched and an error is returned. -/
def sign_transaction (key_info : KeyInfo)
    (sign_bytes_result : Except TurnkeyError (List Nat)) (transaction : Transaction) :
    Transaction × Except TurnkeyError (Transaction × SolSignature) :=
  match sign_bytes_result with
  | .error e => (transaction, .error e)
  | .ok signature_bytes =>
    match signature_try_from signature_bytes with
    | .error e => (transaction, .error e)
    | .ok signature =>
      match position (fun key => key == key_info.public_key) transaction.message.account_keys with
      | some i =>
        if i < transaction.signatures.length then
          let tx : Transaction :=
            { transaction with signatures := transaction.signatures.set i signature }
          (tx, .ok (tx, signature))
        else
          (transaction, .error (.OtherError "Unknown signer or index out of bounds".data))
      | none =>
        (transaction, .error (.OtherError "Unknown signer or index out of bounds".data))

theorem position_eq_none_iff (p : α → Bool) (l : List α) :
    position p l = none ↔ ∀ x ∈ l, p x = false := by
  induction l with
  | nil => simp [position]
  | cons x xs ih =>
    by_cases hp : p x
    · simp [position, hp]
    · rw [position, if_neg hp, Option.map_eq_none', ih]
      constructor
      · intro hall y hy
        rcases List.mem_cons.mp hy with rfl | hy2
        · simpa using hp
        · exact hall y hy2
      · intro hall y hy
        exact hall y (List.mem_cons_of_mem _ hy)

theorem position_eq_some_lt (p : α → Bool) (l : List α) (i : Nat)
    (h : position p l = some i) : i < l.length := by
  induction l generalizing i with
  | nil => cases h
  | cons x xs ih =>
    simp only [position] at h
    by_cases hp : p x
    · rw [if_pos hp] at h
      cases h
      simp
    · rw [if_neg hp] at h
      cases hpos : position p xs with
      | none => rw [hpos] at h; cases h
      | some j =>
        rw [hpos] at h
        simp only [Option.map_some'] at h
        cases h
        have := ih j hpos
        simp only [List.length_cons]
        omega

theorem position_eq_some_found (p : α → Bool) (l : List α) (i : Nat)
    (h : position p l = some i) : ∃ x, l[i]? = some x ∧ p x = true := by
  induction l generalizing i with
  | nil => cases h
  | cons x xs ih =>
    simp only [position] at h
    by_cases hp : p x
    · rw [if_pos hp] at h
      cases h
      exact ⟨x, List.getElem?_cons_zero, hp⟩
    · rw [if_neg hp] at h
      cases hpos : position p xs with
      | none => rw [hpos] at h; cases h
      | some j =>
        rw [hpos] at h
        simp only [Option.map_some'] at h
        cases h
        obtain ⟨y, hy, hpy⟩ := ih j hpos
        exact ⟨y, by rw [List.getElem?_cons_succ]; exact hy, hpy⟩

theorem position_eq_some_first (p : α → Bool) (l : List α) (i : Nat)
    (h : position p l = some i) :
    ∀ j, j < i → ∀ x, l[j]? = some x → p x = false := by
  induction l generalizing i with
  | nil => cases h
  | cons x xs ih =>
    simp only [position] at h
    by_cases hp : p x
    · rw [if_pos hp] at h
      cases h
      intro j hj
      omega
    · rw [if_neg hp] at h
      cases hpos : position p xs with
      | none => rw [hpos] at h; cases h
      | some k =>
        rw [hpos] at h
        simp only [Option.map_some'] at h
        cases h
        intro j hj y hy
        cases j with
        | zero =>
          rw [List.getElem?_cons_zero] at hy
          cases hy
          simpa using hp
        | succ j =>
          rw [List.getElem?_cons_succ] at hy
          exact ih k hpos j (by omega) y hy

/-- C1: when the resolved identity's public key has no exact-equality match in
the transaction's account-key list, or its first matching index is not below
the signature-slot count, `sign_transaction` fails with the unknown-signer
error (`TurnkeyError::OtherError("Unknown signer or index out of bounds")`,
the code's rendering of `UnknownSignerError`) and returns the transaction —
signature list and account-key list included — exactly as it was.  The
hypotheses state that the remote signing round trip itself succeeded with a
well-formed 64-byte signature, isolating the slot-matching failure. -/
theorem sign_transaction_unknown_signer (key_info : KeyInfo) (tx : Transaction)
    (bytes : List Nat) (hlen : bytes.length = 64)
    (hmiss : (∀ k ∈ tx.message.account_keys, k ≠ key_info.public_key) ∨
      ∃ i, position (fun key => key == key_info.public_key) tx.message.account_keys = some i ∧
        ¬ i < tx.signatures.length) :
    sign_transaction key_info (.ok bytes) tx =
      (tx, .error (.OtherError "Unknown signer or index out of bounds".data)) := by
  have htry : signature_try_from bytes = .ok bytes := by
    simp [signature_try_from, hlen]
  rcases hmiss with hnone | ⟨i, hpos, hge⟩
  · have hpnone : position (fun key => key == key_info.public_key) tx.message.account_keys
        = none := by
      rw [position_eq_none_iff]
      intro x hx
      have := hnone x hx
      simpa using this
    simp [sign_transaction, htry, hpnone]
  · simp [sign_transaction, htry, hpos, hge]

/-- C1 witness: account keys `[A, C]` with `A = [1]`, `C = [3]`, signer
identity for `B = [2]`; the call fails with the unknown-signer error and the
transaction is returned unchanged. -/
theorem sign_transaction_unknown_signer_witness :
    sign_transaction ⟨"id".data, [2]⟩ (.ok (List.replicate 64 9))
      ⟨[List.replicate 64 0, List.replicate 64 0], ⟨[[1], [3]], []⟩⟩ =
      (⟨[List.replicate 64 0, List.replicate 64 0], ⟨[[1], [3]], []⟩⟩,
        .error (.OtherError "Unknown signer or index out of bounds".data)) :=
  sign_transaction_unknown_signer ⟨"id".data, [2]⟩
    ⟨[List.replicate 64 0, List.replicate 64 0], ⟨[[1], [3]], []⟩⟩
    (List.replicate 64 9) (by simp) (Or.inl (by decide))

/-- C2: when the identity's public key first matches the account-key list at
index `i` and `i` is within the signature list, `sign_transaction` succeeds,
writing the obtained 64-byte signature into slot `i` only: the returned
transaction differs from the input exactly by `signatures.set i`, the message
(account keys included) is untouched, both list lengths are preserved, every
other slot keeps its previous value, and `i` is the first index whose account
key equals the identity's public key. -/
theorem sign_transaction_injects_first_slot (key_info : KeyInfo) (tx : Transaction)
    (bytes : List Nat) (i : Nat) (hlen : bytes.length = 64)
    (hpos : position (fun key => key == key_info.public_key) tx.message.account_keys = some i)
    (hi : i < tx.signatures.length) :
    sign_transaction key_info (.ok bytes) tx =
      ({ tx with signatures := tx.signatures.set i bytes },
        .ok ({ tx with signatures := tx.signatures.set i bytes }, bytes)) ∧
    ({ tx with signatures := tx.signatures.set i bytes } : Transaction).message = tx.message ∧
    (tx.signatures.set i bytes).length = tx.signatures.length ∧
    (tx.signatures.set i bytes)[i]? = some bytes ∧
    (∀ j, j ≠ i → (tx.signatures.set i bytes)[j]? = tx.signatures[j]?) ∧
    tx.message.account_keys[i]? = some key_info.public_key ∧
    (∀ j, j < i → tx.message.account_keys[j]? ≠ some key_info.public_key) := by
  have htry : signature_try_from bytes = .ok bytes := by
    simp [signature_try_from, hlen]
  refine ⟨?_, rfl, List.length_set tx.signatures i bytes, List.getElem?_set_self hi,
    ?_, ?_, ?_⟩
  · simp [sign_transaction, htry, hpos, hi]
  · intro j hj
    exact List.getElem?_set_ne (Ne.symm hj)
  · obtain ⟨x, hx, hpx⟩ := position_eq_some_found _ _ _ hpos
    rw [hx]
    have : x = key_info.public_key := by simpa using hpx
    rw [this]
  · intro j hj hcontra
    have hfirst := position_eq_some_first _ _ _ hpos j hj key_info.public_key hcontra
    simp at hfirst

/-- C2 witness: account keys `[A, B, C] = [[1], [2], [3]]` with three
signature slots and signer identity `B`; slot 1 receives the injected value
and slots 0 and 2 are untouched. -/
theorem sign_transaction_injects_first_slot_witness :
    sign_transaction ⟨"id".data, [2]⟩ (.ok (List.replicate 64 9))
      ⟨[List.replicate 64 0, List.replicate 64 1, List.replicate 64 2],
        ⟨[[1], [2], [3]], []⟩⟩ =
      (⟨[List.replicate 64 0, List.replicate 64 9, List.replicate 64 2],
          ⟨[[1], [2], [3]], []⟩⟩,
        .ok (⟨[List.replicate 64 0, List.replicate 64 9, List.replicate 64 2],
          ⟨[[1], [2], [3]], []⟩⟩, List.replicate 64 9)) := by
  have h := sign_transaction_injects_first_slot ⟨"id".data, [2]⟩
    ⟨[List.replicate 64 0, List.replicate 64 1, List.replicate 64 2], ⟨[[1], [2], [3]], []⟩⟩
    (List.replicate 64 9) 1 (by simp) (by decide) (by decide)
  exact h.1

/-- serde_json's escaping of one character inside a JSON string: `"` and `\`
are backslash-escaped, the control characters BS, TAB, LF, FF, CR get their
short escapes, every other control character below 0x20 becomes `\u00XX` with
lowercase hex, and all remaining characters are emitted verbatim. -/
def json_escape_char (c : Char) : Str :=
  if c = Char.ofNat 34 then [Char.ofNat 92, Char.ofNat 34]
  else if c = Char.ofNat 92 then [Char.ofNat 92, Char.ofNat 92]
  else if c = Char.ofNat 8 then [Char.ofNat 92, 'b']
  else if c = Char.ofNat 9 then [Char.ofNat 92, 't']
  else if c = Char.ofNat 10 then [Char.ofNat 92, 'n']
  else if c = Char.ofNat 12 then [Char.ofNat 92, 'f']
  else if c = Char.ofNat 13 then [Char.ofNat 92, 'r']
  else if c.toNat < 32 then
    [Char.ofNat 92, 'u', '0', '0', hexChar (c.toNat / 16), hexChar (c.toNat % 16)]
  else [c]

/-- serde_json's rendering of a string value: the escaped characters between
double quotes. -/
def json_string (s : Str) : Str :=
  "\"".data ++ (s.map json_escape_char).flatten ++ "\"".data

/-- One `"name":value` member of a JSON object. -/
def json_member (name : Str) (value : Str) : Str :=
  json_string name ++ ":".data ++ value

/-- A JSON object: the members joined by commas between braces.  This is the
shape serde's derived `Serialize` emits for a struct, with one member per
field in declaration order. -/
def json_object (members : List Str) : Str :=
  "\x7b".data ++ List.intercalate ",".data members ++ "\x7d".data

/-- Embedding of `models.rs` lines 52–58, `ApiStamp`, with serde's `rename_all =
"camelCase"` applied to the field names. -/
structure ApiStamp where
  public_key : Str
  signature : Str
  scheme : Str
deriving DecidableEq

/-- Embedding of `serde_json::to_string` on `ApiStamp`: fields in declaration order under
their camelCase names. -/
def serde_json_ApiStamp (a : ApiStamp) : Str :=
  json_object
    [json_member "publicKey".data (json_string a.public_key),
     json_member "signature".data (json_string a.signature),
     json_member "scheme".data (json_string a.scheme)]

/-- Embedding of `models.rs` lines 13–20, `SignRawPayloadIntentV2Parameters`. -/
structure SignRawPayloadIntentV2Parameters where
  sign_with : Str
  payload : Str
  encoding : Str
  hash_function : Str
deriving DecidableEq

/-- Embedding of `models.rs` lines 3–11, `SignRawPayloadRequest`; `activity_type` is
serialized under the explicit rename `type`. -/
structure SignRawPayloadRequest where
  activity_type : Str
  timestamp_ms : Str
  organization_id : Str
  parameters : SignRawPayloadIntentV2Parameters
deriving DecidableEq

/-- Embedding of `serde_json::to_string` on `SignRawPayloadIntentV2Parameters`: camelCase
field names in declaration order. -/
def serde_json_SignRawPayloadIntentV2Parameters (p : SignRawPayloadIntentV2Parameters) : Str :=
  json_object
    [json_member "signWith".data (json_string p.sign_with),
     json_member "payload".data (json_string p.payload),
     json_member "encoding".data (json_string p.encoding),
     json_member "hashFunction".data (json_string p.hash_function)]

/-- Embedding of `serde_json::to_string` on `SignRawPayloadRequest`: the renamed `type` key
first, then the camelCase keys, in declaration order. -/
def serde_json_SignRawPayloadRequest (r : SignRawPayloadRequest) : Str :=
  json_object
    [json_member "type".data (json_string r.activity_type),
     json_member "timestampMs".data (json_string r.timestamp_ms),
     json_member "organizationId".data (json_string r.organization_id),
     json_member "parameters".data (serde_json_SignRawPayloadIntentV2Parameters r.parameters)]

/-- UTF-8 encoding of one character (RFC 3629). -/
def utf8EncodeChar (c : Char) : List Nat :=
  let n := c.toNat
  if n < 128 then [n]
  else if n < 2048 then [192 + n / 64, 128 + n % 64]
  else if n < 65536 then [224 + n / 4096, 128 + n / 64 % 64, 128 + n % 64]
  else [240 + n / 262144, 128 + n / 4096 % 64, 128 + n / 64 % 64, 128 + n % 64]

/-- The UTF-8 bytes of a string (`str::as_bytes`). -/
def utf8Encode (s : Str) : List Nat := (s.map utf8EncodeChar).flatten

/-- The URL-safe base64 alphabet, in value order. -/
def base64url_alphabet : Str :=
  "ABCDEFGHIJKLMNOPQRSTUVWXYZabcdefghijklmnopqrstuvwxyz0123456789-_".data

/-- The URL-safe base64 digit for a value `0–63`. -/
def b64uChar (n : Nat) : Char := base64url_alphabet.getD n 'A'

/-- Embedding of `bytes.rs` lines 14–16 (`URL_SAFE_NO_PAD.encode`) and the `base64_url`
crate's `encode` used at `client.rs` line 108: unpadded URL-safe base64 —
each 3-byte group becomes 4 digits, a trailing 2-byte group 3 digits, a
trailing single byte 2 digits, with no padding characters. -/
def bytes_to_base64_url : List Nat → Str
  | [] => []
  | [b1] => [b64uChar (b1 / 4), b64uChar (b1 % 4 * 16)]
  | [b1, b2] => [b64uChar (b1 / 4), b64uChar (b1 % 4 * 16 + b2 / 16), b64uChar (b2 % 16 * 4)]
  | b1 :: b2 :: b3 :: rest =>
    b64uChar (b1 / 4) :: b64uChar (b1 % 4 * 16 + b2 / 16) ::
      b64uChar (b2 % 16 * 4 + b3 / 64) :: b64uChar (b3 % 64) :: bytes_to_base64_url rest

/-- The local API credential: the public key string and the hex-encoded
private key (`client.rs` lines 20–21). -/
structure Credential where
  api_public_key : Str
  api_private_key : Str
deriving DecidableEq

/-- The external P-256 ECDSA collaborator (`p256::ecdsa`): parsing a signing
key from its bytes (`SigningKey::from_bytes`, fallible) and producing the
DER-encoded signature over a byte string
(`signing_key.sign(..)` followed by `to_der().to_bytes()`). -/
structure EcdsaApi (Key : Type) where
  from_bytes : List Nat → Except Str Key
  sign_der : Key → List Nat → List Nat

/-- Embedding of `client.rs` lines 93–111, `stamp`: hex-decode the private API key, build
the signing key, sign the message bytes, hex-encode the DER signature, wrap
everything in an `ApiStamp` with the fixed scheme literal, serialize to JSON,
and base64url-encode.  Failures of `hex_to_bytes` and
`SigningKey::from_bytes` are converted by the `From` impls of `errors.rs`
(lines 70–74 and 82–86); `serde_json::to_string` cannot fail on this fixed
shape, so the serializer is total here. -/
def stamp {Key : Type} (api : EcdsaApi Key) (cred : Credential) (message : Str) :
    ROut TurnkeyError Str :=
  match hex_to_bytes cred.api_private_key with
  | .panic m => .panic m
  | .err e => .err (.OtherError e)
  | .ok private_api_key_bytes =>
    match api.from_bytes private_api_key_bytes with
    | .error e => .err (.OtherError ("ECDSA error: ".data ++ e))
    | .ok signing_key =>
      let signature_der := api.sign_der signing_key (utf8Encode message)
      match bytes_to_hex signature_der with
      | .panic m => .panic m
      | .err e => .err (.OtherError e)
      | .ok signature_hex =>
        let api_stamp : ApiStamp :=
          ⟨cred.api_public_key, signature_hex, "SIGNATURE_SCHEME_TK_API_P256".data⟩
        .ok (bytes_to_base64_url (utf8Encode (serde_json_ApiStamp api_stamp)))

/-- Embedding of `client.rs` lines 185–195: the `SignRawPayloadRequest` value built by
`sign_bytes`, with its three fixed constants; the timestamp is the
caller-time `chrono` value, entering as a parameter. -/
def build_sign_raw_payload_body (organization_id timestamp_ms private_key_id : Str)
    (bytes : List Nat) : SignRawPayloadRequest :=
  { activity_type := "ACTIVITY_TYPE_SIGN_RAW_PAYLOAD_V2".data,
    timestamp_ms := timestamp_ms,
    organization_id := organization_id,
    parameters :=
      { sign_with := private_key_id,
        payload := bytes_to_hex_chars bytes,
        encoding := "PAYLOAD_ENCODING_HEXADECIMAL".data,
        hash_function := "HASH_FUNCTION_NOT_APPLICABLE".data } }

theorem json_object_three (a b c : Str) :
    json_object [a, b, c] =
      "\x7b".data ++ a ++ ",".data ++ b ++ ",".data ++ c ++ "\x7d".data := by
  simp [json_object, List.intercalate, List.intersperse]

theorem json_object_four (a b c d : Str) :
    json_object [a, b, c, d] =
      "\x7b".data ++ a ++ ",".data ++ b ++ ",".data ++ c ++ ",".data ++ d ++ "\x7d".data := by
  simp [json_object, List.intercalate, List.intersperse]

/-- C3: for a credential whose private-key hex decodes and parses into a
signing key, `stamp(body)` returns the unpadded URL-safe base64 encoding of
the JSON serialization of a record with exactly the members `publicKey` (the
credential's public key), `signature` (the two-lowercase-digits-per-byte hex
rendering `bytes_to_hex_chars` of the DER-encoded P-256 signature over the
body's bytes), and `scheme` (the literal `SIGNATURE_SCHEME_TK_API_P256`), in
that order. -/
theorem stamp_builds_base64url_json {Key : Type} (api : EcdsaApi Key) (cred : Credential)
    (body : Str) (pkb : List Nat) (key : Key)
    (h1 : hex_to_bytes cred.api_private_key = .ok pkb)
    (h2 : api.from_bytes pkb = .ok key) :
    stamp api cred body =
      .ok (bytes_to_base64_url (utf8Encode (
        "\x7b".data ++ json_string "publicKey".data ++ ":".data
          ++ json_string cred.api_public_key ++ ",".data
          ++ json_string "signature".data ++ ":".data
          ++ json_string (bytes_to_hex_chars (api.sign_der key (utf8Encode body))) ++ ",".data
          ++ json_string "scheme".data ++ ":".data
          ++ json_string "SIGNATURE_SCHEME_TK_API_P256".data
          ++ "\x7d".data))) := by
  simp only [stamp, h1, h2, bytes_to_hex]
  congr 2
  rw [serde_json_ApiStamp, json_object_three]
  simp [json_member, List.append_assoc]

/-- C3 witness: a concrete ECDSA collaborator over `Key = Unit` returning the
DER bytes `[1, 2]`, a credential with the valid private-key hex `"0a"`, and
the body `"body"`. -/
theorem stamp_builds_base64url_json_witness :
    stamp ⟨fun _ => .ok (), fun _ _ => [1, 2]⟩ ⟨"pk".data, "0a".data⟩ "body".data =
      .ok (bytes_to_base64_url (utf8Encode (
        "\x7b".data ++ json_string "publicKey".data ++ ":".data
          ++ json_string "pk".data ++ ",".data
          ++ json_string "signature".data ++ ":".data
          ++ json_string (bytes_to_hex_chars [1, 2]) ++ ",".data
          ++ json_string "scheme".data ++ ":".data
          ++ json_string "SIGNATURE_SCHEME_TK_API_P256".data
          ++ "\x7d".data))) :=
  @stamp_builds_base64url_json Unit ⟨fun _ => .ok (), fun _ _ => [1, 2]⟩
    ⟨"pk".data, "0a".data⟩ "body".data [10] () rfl rfl

/-- C10: the JSON body that `sign_bytes` stamps and sends serializes the
request under the key `type` (value `ACTIVITY_TYPE_SIGN_RAW_PAYLOAD_V2`) and
the camelCase keys `timestampMs`, `organizationId` and `parameters`, the
parameters object under `signWith`, `payload`, `encoding`
(`PAYLOAD_ENCODING_HEXADECIMAL`) and `hashFunction`
(`HASH_FUNCTION_NOT_APPLICABLE`), with the payload the hex rendering of the
signed bytes. -/
theorem sign_raw_payload_request_json_keys (org ts keyid : Str) (bytes : List Nat) :
    serde_json_SignRawPayloadRequest (build_sign_raw_payload_body org ts keyid bytes) =
      "\x7b".data ++ json_string "type".data ++ ":".data
        ++ json_string "ACTIVITY_TYPE_SIGN_RAW_PAYLOAD_V2".data ++ ",".data
        ++ json_string "timestampMs".data ++ ":".data ++ json_string ts ++ ",".data
        ++ json_string "organizationId".data ++ ":".data ++ json_string org ++ ",".data
        ++ json_string "parameters".data ++ ":".data
        ++ ("\x7b".data ++ json_string "signWith".data ++ ":".data
          ++ json_string keyid ++ ",".data
          ++ json_string "payload".data ++ ":".data
          ++ json_string (bytes_to_hex_chars bytes) ++ ",".data
          ++ json_string "encoding".data ++ ":".data
          ++ json_string "PAYLOAD_ENCODING_HEXADECIMAL".data ++ ",".data
          ++ json_string "hashFunction".data ++ ":".data
          ++ json_string "HASH_FUNCTION_NOT_APPLICABLE".data
          ++ "\x7d".data)
        ++ "\x7d".data := by
  rw [serde_json_SignRawPayloadRequest, serde_json_SignRawPayloadIntentV2Parameters,
    json_object_four, json_object_four]
  simp [build_sign_raw_payload_body, json_member, List.append_assoc]

/-- Embedding of `models.rs` lines 45–50, `SignRawPayloadResult`: the two hex scalars of
the remote signature. -/
structure SignRawPayloadResult where
  r : Str
  s : Str
deriving DecidableEq

/-- Embedding of `models.rs` lines 39–43, `ActivityResult`: the optional signing
sub-result. -/
structure ActivityResult where
  sign_raw_payload_result : Option SignRawPayloadResult
deriving DecidableEq

/-- Embedding of `models.rs` lines 28–37, `Activity`: the remote activity, with an
optional result. -/
structure Activity where
  id : Str
  organization_id : Str
  status : Str
  result : Option ActivityResult
  activity_type : Str
deriving DecidableEq

/-- Embedding of `models.rs` lines 22–26, `ActivityResponse`: the decoded remote success
body. -/
structure ActivityResponse where
  activity : Activity
deriving DecidableEq

/-- Embedding of `client.rs` lines 211–223: the tail of `sign_bytes` after the decoded
response is in hand.  If the activity carries a result with a signing
sub-result, the `r` and `s` hex scalars are concatenated and hex-decoded into
the returned signature bytes (a `hex_to_bytes` failure propagating through
`?` and the `From` impl of `errors.rs` lines 70–74); otherwise the function
returns the missing-result error.  This is a single terminal return — there
is no retry path. -/
def sign_bytes_extract (response_body : ActivityResponse) : ROut TurnkeyError (List Nat) :=
  match response_body.activity.result with
  | some result =>
    match result.sign_raw_payload_result with
    | some signing_result =>
      match hex_to_bytes (signing_result.r ++ signing_result.s) with
      | .ok signature_bytes => .ok signature_bytes
      | .err e => .err (.OtherError e)
      | .panic m => .panic m
    | none => .err (.OtherError "Missing SIGN_RAW_PAYLOAD result".data)
  | none => .err (.OtherError "Missing SIGN_RAW_PAYLOAD result".data)

/-- C4: when the remote response's activity carries a signing sub-result
whose concatenated `r` and `s` hex scalars decode to bytes `B`, `sign_bytes`
returns exactly `B`. -/
theorem sign_bytes_extract_concat_rs (resp : ActivityResponse)
    (ar : ActivityResult) (srp : SignRawPayloadResult) (B : List Nat)
    (h1 : resp.activity.result = some ar)
    (h2 : ar.sign_raw_payload_result = some srp)
    (h3 : hex_to_bytes (srp.r ++ srp.s) = .ok B) :
    sign_bytes_extract resp = .ok B := by
  simp [sign_bytes_extract, h1, h2, h3]

/-- C4 witness: the spec's end-to-end scenario — `r` is `"aa"` repeated 32
times, `s` is `"bb"` repeated 32 times, and the returned signature is the 64
bytes `0xaa × 32` followed by `0xbb × 32`. -/
theorem sign_bytes_extract_concat_rs_witness :
    sign_bytes_extract
      ⟨⟨"id".data, "org".data, "ACTIVITY_STATUS_COMPLETED".data,
        some ⟨some ⟨List.replicate 64 'a', List.replicate 64 'b'⟩⟩, "t".data⟩⟩ =
      .ok (List.replicate 32 170 ++ List.replicate 32 187) :=
  sign_bytes_extract_concat_rs
    ⟨⟨"id".data, "org".data, "ACTIVITY_STATUS_COMPLETED".data,
      some ⟨some ⟨List.replicate 64 'a', List.replicate 64 'b'⟩⟩, "t".data⟩⟩
    ⟨some ⟨List.replicate 64 'a', List.replicate 64 'b'⟩⟩
    ⟨List.replicate 64 'a', List.replicate 64 'b'⟩
    (List.replicate 32 170 ++ List.replicate 32 187) rfl rfl (by decide)

/-- C5: when the decoded success response has no `result`, or a `result`
without a `signRawPayloadResult`, `sign_bytes` returns the
`Missing SIGN_RAW_PAYLOAD result` error (`MissingResultError`) — a returned
error, not a panic and not a default signature — and, being a plain return,
this layer retries nothing. -/
theorem sign_bytes_extract_missing_result (resp : ActivityResponse)
    (h : resp.activity.result = none ∨
      ∃ ar, resp.activity.result = some ar ∧ ar.sign_raw_payload_result = none) :
    sign_bytes_extract resp =
      .err (.OtherError "Missing SIGN_RAW_PAYLOAD result".data) := by
  rcases h with h | ⟨ar, h1, h2⟩
  · simp [sign_bytes_extract, h]
  · simp [sign_bytes_extract, h1, h2]

/-- C5 witness: a completed activity whose `result` field is absent. -/
theorem sign_bytes_extract_missing_result_witness :
    sign_bytes_extract
      ⟨⟨"id".data, "org".data, "ACTIVITY_STATUS_COMPLETED".data, none, "t".data⟩⟩ =
      .err (.OtherError "Missing SIGN_RAW_PAYLOAD result".data) :=
  sign_bytes_extract_missing_result
    ⟨⟨"id".data, "org".data, "ACTIVITY_STATUS_COMPLETED".data, none, "t".data⟩⟩
    (Or.inl rfl)

/-- The observable face of a `reqwest::Response` as `process_response` uses
it: the success flag of the HTTP status (`status().is_success()`), and the
outcomes of deserializing the body as the expected type `T`
(`res.json::<T>()`) and as the structured remote error
(`res.json::<TurnkeyResponseError>()`).  JSON deserialization itself is the
transport collaborator's work; a deserialization failure is a
`reqwest::Error`, modelled by its description string. -/
structure MockResponse (T : Type) where
  is_success : Bool
  json_decoded : Except Str T
  json_error_decoded : Except Str TurnkeyResponseError

/-- Embedding of `client.rs` lines 254–282, `process_response`: a transport error maps to
`HttpError`; a success-status response is deserialized as `T` (failure again
`HttpError`); a non-success-status response is deserialized as the structured
remote error and wrapped in `MethodError`, with a deserialization failure
again surfacing as `HttpError`. -/
def process_response {T : Type} (response : Except Str (MockResponse T)) :
    Except TurnkeyError T :=
  match response with
  | .ok res =>
    if res.is_success then
      match res.json_decoded with
      | .ok t => .ok t
      | .error e => .error (.HttpError e)
    else
      match res.json_error_decoded with
      | .ok err => .error (.MethodError err)
      | .error e => .error (.HttpError e)
  | .error e => .error (.HttpError e)

/-- C6: a non-success HTTP response whose body decodes as the structured
remote error `E` fails with `MethodError` (`RemoteMethodError`) carrying `E`
itself — code, message and field-violation details exactly as supplied — and
a transport-level failure fails with `HttpError` (`TransportError`) carrying
the transport error. -/
theorem process_response_remote_and_transport_errors {T : Type} (res : MockResponse T)
    (E : TurnkeyResponseError) (te : Str)
    (hs : res.is_success = false)
    (hd : res.json_error_decoded = .ok E) :
    process_response (.ok res) = .error (.MethodError E) ∧
    @process_response T (.error te) = .error (.HttpError te) := by
  constructor
  · simp [process_response, hs, hd]
  · rfl

/-- C6 witness: a non-success response carrying code 3, message
`"bad request"` and one field violation, plus the transport failure
`"connection reset"`. -/
theorem process_response_remote_and_transport_errors_witness :
    process_response
      (.ok (⟨false, .error "no body".data,
        .ok ⟨3, "bad request".data,
          [⟨"type.googleapis.com/google.rpc.BadRequest".data,
            [⟨"payload".data, "must be hex".data⟩]⟩]⟩⟩ : MockResponse Nat)) =
      .error (.MethodError ⟨3, "bad request".data,
        [⟨"type.googleapis.com/google.rpc.BadRequest".data,
          [⟨"payload".data, "must be hex".data⟩]⟩]⟩) ∧
    @process_response Nat (.error "connection reset".data) =
      .error (.HttpError "connection reset".data) :=
  process_response_remote_and_transport_errors
    ⟨false, .error "no body".data,
      .ok ⟨3, "bad request".data,
        [⟨"type.googleapis.com/google.rpc.BadRequest".data,
          [⟨"payload".data, "must be hex".data⟩]⟩]⟩⟩
    ⟨3, "bad request".data,
      [⟨"type.googleapis.com/google.rpc.BadRequest".data,
        [⟨"payload".data, "must be hex".data⟩]⟩]⟩
    "connection reset".data rfl rfl

end Turnkey
